import Mathlib

set_option maxHeartbeats 1000000

namespace PynwbSpec

/-! Shallow embedding of the pynwb session-construction and container-validation
logic (src/pynwb/init module and src/pynwb/ecephys module), together with
spec-modelled fragments for the parts of the engine that this repository
delegates to its mapping-engine dependency. -/

/-! ## Session construction: NWBHDF5IO init argument handling -/

/-- Where the BuildManager used by a new I/O session comes from, one constructor
per branch of the init method of NWBHDF5IO. -/
inductive ManagerSource where
  | fromLoadedNamespaces
  | given
  | fromExtensions
  | defaultManager
deriving DecidableEq, Repr

/-- Model of the argument handling in the init method of NWBHDF5IO: the mode
string, the load_namespaces flag, and whether a manager or an extensions
argument was passed.  Returns the manager source chosen on success, or the
message of the ValueError raised.  Mirrors the source: when load_namespaces is
set, a mode containing the letter w or equal to x is rejected; otherwise
passing both manager and extensions is rejected, extensions alone builds the
manager from the extensions, neither builds the default manager, and a manager
alone is used as given. -/
def nwbhdf5ioInit (mode : String) (loadNamespaces managerGiven extensionsGiven : Bool) :
    Except String ManagerSource :=
  if loadNamespaces then
    if mode.data.contains 'w' || mode == "x" then
      Except.error "cannot load namespaces from file when writing to it"
    else
      Except.ok ManagerSource.fromLoadedNamespaces
  else
    if managerGiven && extensionsGiven then
      Except.error "manager and extensions cannot be specified together"
    else if extensionsGiven then
      Except.ok ManagerSource.fromExtensions
    else if !managerGiven then
      Except.ok ManagerSource.defaultManager
    else
      Except.ok ManagerSource.given

/-- True when an Except value is a success. -/
def exceptOk {ε α : Type} : Except ε α → Bool
  | Except.ok _ => true
  | Except.error _ => false

/-! ## ElectrodeGroup construction -/

/-- The fields stored on a constructed ElectrodeGroup. -/
structure ElectrodeGroup where
  name : String
  description : String
  location : String
  device : String
  position : Option (List Int)
deriving DecidableEq, Repr

/-- Python truthiness of the position argument: None and the empty sequence
are falsy, any non-empty sequence is truthy. -/
def positionTruthy : Option (List Int) → Bool
  | none => false
  | some l => !l.isEmpty

/-- Model of the init method of ElectrodeGroup: a truthy position whose length
differs from three raises, otherwise every field is stored as given. -/
def electrodeGroupInit (name description location device : String)
    (position : Option (List Int)) : Except String ElectrodeGroup :=
  if positionTruthy position && (position.getD []).length != 3 then
    Except.error "ElectrodeGroup position argument must have three elements: x, y, z"
  else
    Except.ok { name := name, description := description, location := location,
                device := device, position := position }

/-! ## SpikeEventSeries construction -/

/-- The runtime type of the data and timestamps arguments of SpikeEventSeries:
a plain array, a TimeSeries, or a DataChunkIterator; each carries its
elements so a length is available. -/
inductive SeriesArg where
  | plainArray (xs : List Int)
  | timeSeries (xs : List Int)
  | chunkIterator (xs : List Int)
deriving DecidableEq, Repr

/-- Whether the argument is a TimeSeries. -/
def SeriesArg.isTimeSeries : SeriesArg → Bool
  | SeriesArg.timeSeries _ => true
  | _ => false

/-- Whether the argument is a DataChunkIterator. -/
def SeriesArg.isChunkIterator : SeriesArg → Bool
  | SeriesArg.chunkIterator _ => true
  | _ => false

/-- The length of the argument. -/
def SeriesArg.len : SeriesArg → Nat
  | SeriesArg.plainArray xs => xs.length
  | SeriesArg.timeSeries xs => xs.length
  | SeriesArg.chunkIterator xs => xs.length

/-- Model of the length check in the init method of SpikeEventSeries: when
neither argument is a TimeSeries and neither is a DataChunkIterator, differing
lengths raise; in every other case the check is skipped. -/
def spikeEventSeriesLengthCheck (data timestamps : SeriesArg) : Except String Unit :=
  if !(data.isTimeSeries || timestamps.isTimeSeries) then
    if !(data.isChunkIterator || timestamps.isChunkIterator) then
      if data.len != timestamps.len then
        Except.error "Must provide the same number of timestamps and spike events"
      else
        Except.ok ()
    else
      Except.ok ()
  else
    Except.ok ()

/-! ## Shape constraints -/

/-- Modelled from the spec: the docval shape enforcement lives in the
mapping-engine dependency, not in this repository.  A shape alternative is a
list of dimensions, each either a fixed size or a None placeholder; an actual
shape matches when the ranks agree and every fixed dimension agrees. -/
def matchesShapeSpec (actual : List Nat) (alt : List (Option Nat)) : Bool :=
  actual.length == alt.length &&
    (List.zip actual alt).all fun p =>
      match p.2 with
      | none => true
      | some n => p.1 == n

/-- Proposition form of shape matching: the ranks agree and, dimension by
dimension, the alternative is either a None placeholder or exactly the actual
size. -/
def MatchesAlt (actual : List Nat) (alt : List (Option Nat)) : Prop :=
  List.Forall₂ (fun d o => o = none ∨ o = some d) actual alt

/-- A shape-constraint error records the declared alternatives and the actual
shape that matched none of them. -/
structure ShapeConstraintError where
  alternatives : List (List (Option Nat))
  actual : List Nat
deriving DecidableEq, Repr

/-- Modelled from the spec: checking a value shape against the declared
alternatives; a shape matching no alternative is rejected with an error
identifying the expected alternatives and the actual shape. -/
def checkShape (actual : List Nat) (alts : List (List (Option Nat))) :
    Except ShapeConstraintError Unit :=
  if alts.any (matchesShapeSpec actual) then
    Except.ok ()
  else
    Except.error { alternatives := alts, actual := actual }

/-- The shape alternatives declared for the data argument of ElectricalSeries
in the source: one, two or three unconstrained dimensions. -/
def electricalSeriesDataShapeAlts : List (List (Option Nat)) :=
  [[none], [none, none], [none, none, none]]

/-- The shape alternatives declared for the num argument of Clustering in the
source: exactly one unconstrained dimension. -/
def clusteringNumShapeAlts : List (List (Option Nat)) :=
  [[none]]

/-- The shape alternatives declared for the times argument of Clustering in
the source: exactly one unconstrained dimension. -/
def clusteringTimesShapeAlts : List (List (Option Nat)) :=
  [[none]]

/-! ## ElectricalSeries orientation heuristic -/

/-- The two advisory warnings the orientation heuristic of ElectricalSeries
can emit. -/
inductive OrientationWarning where
  | transposed
  | maybeTransposed
deriving DecidableEq, Repr

/-- Model of the orientation heuristic in the init method of ElectricalSeries:
on two-dimensional data whose second dimension differs from the electrode
count, warn that the data is transposed when the first dimension matches the
electrode count, and that it may be transposed otherwise.  Never an error. -/
def electricalSeriesOrientationWarning (dataShape : Option (List Nat))
    (numElectrodes : Nat) : Option OrientationWarning :=
  match dataShape with
  | some s =>
      if s.length == 2 && s.getD 1 0 != numElectrodes then
        if s.getD 0 0 == numElectrodes then
          some OrientationWarning.transposed
        else
          some OrientationWarning.maybeTransposed
      else
        none
  | none => none

/-- Model of constructing an ElectricalSeries from data of known shape: the
docval layer checks the declared shape alternatives and raises on mismatch;
the constructor body then runs the orientation heuristic, which can only
warn.  The result carries the advisory warning emitted, if any. -/
def electricalSeriesInit (dataShape : Option (List Nat)) (numElectrodes : Nat) :
    Except ShapeConstraintError (Option OrientationWarning) :=
  match dataShape with
  | some s =>
      match checkShape s electricalSeriesDataShapeAlts with
      | Except.ok _ =>
          Except.ok (electricalSeriesOrientationWarning dataShape numElectrodes)
      | Except.error e => Except.error e
  | none => Except.ok none

/-! ## The process-wide type map and get_type_map -/

/-- The abstract content of a TypeMap object: the namespaces it has loaded. -/
abbrev Namespaces := List String

/-- A heap of TypeMap objects, so that aliasing and in-place mutation are
explicit: addresses below next hold live objects. -/
structure TMState where
  heap : Nat → Namespaces
  next : Nat

/-- Write one object of the heap. -/
def writeHeap (s : TMState) (a : Nat) (v : Namespaces) : TMState :=
  { heap := fun x => if x = a then v else s.heap x, next := s.next }

/-- Merging one TypeMap content into another registers every namespace of the
source that the destination does not already hold. -/
def mergeNamespaces (dst src : Namespaces) : Namespaces :=
  src.foldl (fun acc ns => if ns ∈ acc then acc else acc ++ [ns]) dst

/-- A deep copy allocates a fresh object holding the same content. -/
def deepcopyTM (s : TMState) (src : Nat) : Nat × TMState :=
  (s.next,
   { heap := fun x => if x = s.next then s.heap src else s.heap x, next := s.next + 1 })

/-- Loading a namespace file into the object at an address merges the
namespaces that the file defines, in place. -/
def loadNamespacesAt (nsOfPath : String → Namespaces) (s : TMState) (a : Nat)
    (p : String) : TMState :=
  writeHeap s a (mergeNamespaces (s.heap a) (nsOfPath p))

/-- Merging the object at srcObj into the object at dst, in place. -/
def mergeAt (s : TMState) (dst srcObj : Nat) : TMState :=
  writeHeap s dst (mergeNamespaces (s.heap dst) (s.heap srcObj))

/-- One element of a list passed as the extensions argument: a namespace path
or a TypeMap object. -/
inductive ExtItem where
  | path (p : String)
  | typeMap (addr : Nat)
deriving DecidableEq, Repr

/-- The extensions argument of get_type_map: omitted, a namespace path, a
TypeMap object, or a list of paths and TypeMap objects. -/
inductive ExtArg where
  | noExt
  | path (p : String)
  | typeMap (addr : Nat)
  | listArg (items : List ExtItem)
deriving DecidableEq, Repr

/-- Processing one list element of the extensions argument against the result
object at address a: a path is loaded, a TypeMap is merged. -/
def applyExtItem (nsOfPath : String → Namespaces) (a : Nat) (s : TMState) :
    ExtItem → TMState
  | ExtItem.path p => loadNamespacesAt nsOfPath s a p
  | ExtItem.typeMap addr => mergeAt s a addr

/-- Model of get_type_map over the explicit heap, with the process-wide
default TypeMap living at defaultAddr.  Mirrors the source: no extensions
deep-copies the default; a TypeMap argument is returned itself after a
self-merge; a path or a list first deep-copies the default, then loads each
path and merges each TypeMap into the copy.  Returns the address of the
resulting TypeMap and the final heap. -/
def getTypeMap (nsOfPath : String → Namespaces) (defaultAddr : Nat) (exts : ExtArg)
    (s : TMState) : Nat × TMState :=
  match exts with
  | ExtArg.noExt => deepcopyTM s defaultAddr
  | ExtArg.path p =>
      let r := deepcopyTM s defaultAddr
      (r.1, loadNamespacesAt nsOfPath r.2 r.1 p)
  | ExtArg.typeMap addr => (addr, mergeAt s addr addr)
  | ExtArg.listArg items =>
      let r := deepcopyTM s defaultAddr
      (r.1, items.foldl (applyExtItem nsOfPath r.1) r.2)

/-- The namespaces contributed by one list element, read off a given heap. -/
def extItemNamespaces (nsOfPath : String → Namespaces) (heap : Nat → Namespaces) :
    ExtItem → Namespaces
  | ExtItem.path p => nsOfPath p
  | ExtItem.typeMap a => heap a

/-- The namespaces contributed by the whole extensions argument, read off a
given heap. -/
def extArgNamespaces (nsOfPath : String → Namespaces) (heap : Nat → Namespaces) :
    ExtArg → Namespaces
  | ExtArg.noExt => []
  | ExtArg.path p => nsOfPath p
  | ExtArg.typeMap a => heap a
  | ExtArg.listArg items => (items.map (extItemNamespaces nsOfPath heap)).flatten

/-- Validity of one list element: a TypeMap element refers to a live object. -/
def extItemValid (n : Nat) : ExtItem → Prop
  | ExtItem.path _ => True
  | ExtItem.typeMap a => a < n

/-- Validity of the extensions argument: every TypeMap it mentions refers to a
live object of the heap. -/
def extArgValid (n : Nat) : ExtArg → Prop
  | ExtArg.noExt => True
  | ExtArg.path _ => True
  | ExtArg.typeMap a => a < n
  | ExtArg.listArg items => ∀ it ∈ items, extItemValid n it

/-! ## Validator -/

/-- One flattened attribute or child declaration of a type specification: its
name, whether it is required, and its declared shape alternatives, if any. -/
structure AttrSpec where
  name : String
  required : Bool
  shapeAlts : Option (List (List (Option Nat)))
deriving DecidableEq, Repr

/-- A flattened type specification: the declarations of the type and of all
its ancestors. -/
structure TypeSpecFlat where
  attrs : List AttrSpec
deriving DecidableEq, Repr

/-- A builder node to validate: the fields present, each with the shape of its
value. -/
structure BuilderNode where
  fields : List (String × List Nat)
deriving DecidableEq, Repr

/-- A validation error: a missing required field, or a field whose value shape
matches none of the declared alternatives. -/
inductive ValidationError where
  | missingError (field : String)
  | shapeError (field : String) (alternatives : List (List (Option Nat)))
      (actual : List Nat)
deriving DecidableEq, Repr

/-- Look up a present field of a builder node by name. -/
def lookupField (fields : List (String × List Nat)) (n : String) : Option (List Nat) :=
  match fields.find? (fun p => p.1 == n) with
  | some p => some p.2
  | none => none

/-- Modelled from the spec: the validator engine lives in the mapping-engine
dependency, not in this repository.  Checking one declaration against a
builder node: a missing required field yields a missing error, a present
field violating its declared shape alternatives yields a shape error, and
everything else yields no error. -/
def checkAttr (b : BuilderNode) (a : AttrSpec) : Option ValidationError :=
  match lookupField b.fields a.name with
  | none => if a.required then some (ValidationError.missingError a.name) else none
  | some sh =>
      match a.shapeAlts with
      | some alts =>
          if alts.any (matchesShapeSpec sh) then none
          else some (ValidationError.shapeError a.name alts sh)
      | none => none

/-- Modelled from the spec: validate walks every declaration of the resolved
type and collects every error, never stopping at the first one. -/
def validateBuilder (spec : TypeSpecFlat) (b : BuilderNode) : List ValidationError :=
  spec.attrs.filterMap (checkAttr b)

/-- A concrete type specification with two independent required fields that
will be missing, one shape-constrained field, and one satisfied field. -/
def threeViolationSpec : TypeSpecFlat :=
  { attrs := [ { name := "f0", required := true, shapeAlts := none },
               { name := "f1", required := true, shapeAlts := none },
               { name := "f2", required := true, shapeAlts := none },
               { name := "f3", required := false, shapeAlts := some [[none]] } ] }

/-- A concrete builder node missing the required fields f1 and f2 and holding
a two-dimensional value in the one-dimensional field f3. -/
def threeViolationBuilder : BuilderNode :=
  { fields := [("f0", [4]), ("f3", [2, 3])] }

/-! ## Export -/

/-- A link or reference stored on an object: the store it targets and the
object within that store. -/
structure LinkRef where
  storeId : Nat
  objId : Nat
deriving DecidableEq, Repr

/-- A stored object: its identifier and the links and references it holds. -/
structure StoredObject where
  objId : Nat
  links : List LinkRef
deriving DecidableEq, Repr

/-- A store: its identifier and its objects. -/
structure Store where
  storeId : Nat
  objects : List StoredObject
deriving DecidableEq, Repr

/-- Modelled from the spec: rewriting one link during export.  A link into the
source store is redirected to the same object in the destination store; a
link to any other store is preserved verbatim. -/
def exportLink (srcId destId : Nat) (l : LinkRef) : LinkRef :=
  if l.storeId == srcId then { storeId := destId, objId := l.objId } else l

/-- Modelled from the spec: the export engine lives in the mapping-engine
dependency, not in this repository.  Export copies every object of the source
store into the destination store, rewriting each link it holds. -/
def exportStore (src : Store) (destId : Nat) : Store :=
  { storeId := destId,
    objects := src.objects.map fun o =>
      { objId := o.objId, links := o.links.map (exportLink src.storeId destId) } }

/-! ## Round trip through an I/O session

Modelled from the spec: the build, serialize, read and construct engine lives
in the mapping-engine dependency, not in this repository.  A container graph
is built into a builder tree, written, read back with every dataset payload
left behind a lazy handle, and constructed into a lazy container graph whose
handles materialize slices on demand. -/

mutual
/-- An in-memory container node: name, attributes, one array-valued dataset
field, and the child containers it owns. -/
inductive Container where
  | node (name : String) (attrs : List (String × Int)) (arrayData : List Int)
      (children : ContainerForest)
/-- The ordered children of a container. -/
inductive ContainerForest where
  | nil
  | cons (head : Container) (tail : ContainerForest)
end

mutual
/-- A builder tree node: the serialization-agnostic counterpart of a
container, as written to the backend store. -/
inductive Builder where
  | group (name : String) (attrs : List (String × Int)) (data : List Int)
      (children : BuilderForest)
/-- The ordered children of a builder node. -/
inductive BuilderForest where
  | nil
  | cons (head : Builder) (tail : BuilderForest)
end

mutual
/-- Build a container into a builder tree; writing stores this tree. -/
def build : Container → Builder
  | Container.node n a d ch => Builder.group n a d (buildForest ch)
/-- Build every child container. -/
def buildForest : ContainerForest → BuilderForest
  | ContainerForest.nil => BuilderForest.nil
  | ContainerForest.cons c rest => BuilderForest.cons (build c) (buildForest rest)
end

/-- The child of a builder forest at an index. -/
def forestGet : BuilderForest → Nat → Option Builder
  | BuilderForest.nil, _ => none
  | BuilderForest.cons b _, 0 => some b
  | BuilderForest.cons _ rest, n + 1 => forestGet rest n

/-- The child container of a container forest at an index. -/
def cforestGet : ContainerForest → Nat → Option Container
  | ContainerForest.nil, _ => none
  | ContainerForest.cons c _, 0 => some c
  | ContainerForest.cons _ rest, n + 1 => cforestGet rest n

/-- Resolve a path of child indices from a stored builder root. -/
def lookupPath : Builder → List Nat → Option Builder
  | b, [] => some b
  | Builder.group _ _ _ ch, i :: p =>
      match forestGet ch i with
      | some child => lookupPath child p
      | none => none

/-- The dataset payload stored on a builder node. -/
def builderData : Builder → List Int
  | Builder.group _ _ d _ => d

/-- The child of a builder node at an index. -/
def childAt (b : Builder) (i : Nat) : Option Builder :=
  match b with
  | Builder.group _ _ _ ch => forestGet ch i

/-- Materialize, through a lazy handle into the store, the slice of length k
starting at index i of the dataset the handle designates. -/
def materializeSlice (store : Builder) (handle : List Nat) (i k : Nat) : List Int :=
  match lookupPath store handle with
  | some b => ((builderData b).drop i).take k
  | none => []

mutual
/-- A constructed container whose dataset field is a lazy handle into the
store rather than a materialized array. -/
inductive LazyContainer where
  | node (name : String) (attrs : List (String × Int)) (handle : List Nat)
      (children : LazyForest)
/-- The ordered children of a lazy container. -/
inductive LazyForest where
  | nil
  | cons (head : LazyContainer) (tail : LazyForest)
end

mutual
/-- Construct the lazy container for the builder found at a path of the
store: attributes are copied, the dataset payload stays behind its handle,
children are constructed recursively at their extended paths. -/
def construct : Builder → List Nat → LazyContainer
  | Builder.group n a _ ch, p => LazyContainer.node n a p (constructForest ch p 0)
/-- Construct the children, each at the parent path extended by its index. -/
def constructForest : BuilderForest → List Nat → Nat → LazyForest
  | BuilderForest.nil, _, _ => LazyForest.nil
  | BuilderForest.cons b rest, p, i =>
      LazyForest.cons (construct b (p ++ [i])) (constructForest rest p (i + 1))
end

/-- Reading a store yields the lazy container constructed at the root. -/
def readConstruct (store : Builder) : LazyContainer :=
  construct store []

mutual
/-- Equivalence of a constructed lazy container with an original container:
names and attributes agree, every materialized slice of the lazy handle
agrees with the same slice of the original array, and the children agree
pairwise. -/
def EquivC (store : Builder) : LazyContainer → Container → Prop
  | LazyContainer.node n a h ch, Container.node n2 a2 arr ch2 =>
      n = n2 ∧ a = a2 ∧
        (∀ i k, materializeSlice store h i k = (arr.drop i).take k) ∧
        EquivF store ch ch2
/-- Pairwise equivalence of the children. -/
def EquivF (store : Builder) : LazyForest → ContainerForest → Prop
  | LazyForest.nil, ContainerForest.nil => True
  | LazyForest.cons lc lrest, ContainerForest.cons c crest =>
      EquivC store lc c ∧ EquivF store lrest crest
  | _, _ => False
end

/-! ## Theorems -/

theorem matchesShapeSpec_iff (actual : List Nat) (alt : List (Option Nat)) :
    matchesShapeSpec actual alt = true ↔ MatchesAlt actual alt := by
  induction actual generalizing alt with
  | nil =>
      cases alt with
      | nil => simp [matchesShapeSpec, MatchesAlt]
      | cons o os => simp [matchesShapeSpec, MatchesAlt]
  | cons a as ih =>
      cases alt with
      | nil => simp [matchesShapeSpec, MatchesAlt]
      | cons o os =>
          rw [MatchesAlt, List.forall₂_cons, ← MatchesAlt, ← ih]
          cases o with
          | none => simp [matchesShapeSpec, List.zip_cons_cons]
          | some m =>
              simp [matchesShapeSpec, List.zip_cons_cons]
              aesop

theorem matchesShapeSpec_allNone (actual : List Nat) (k : Nat) :
    matchesShapeSpec actual (List.replicate k none) = (actual.length == k) := by
  unfold matchesShapeSpec
  have hall : ((actual.zip (List.replicate k (none : Option Nat))).all fun p =>
      match p.2 with
      | none => true
      | some n => p.1 == n) = true := by
    rw [List.all_eq_true]
    intro p hp
    have hmem := List.of_mem_zip hp
    have hnone : p.2 = none := List.eq_of_mem_replicate hmem.2
    rw [hnone]
  rw [hall, Bool.and_true, List.length_replicate]

/-- Claim C4: requesting to load cached namespaces while opening a session for
writing fails for every write mode among w, w- and x, and succeeds for the
non-write modes r, r+ and a, whatever manager or extensions arguments were
also passed. -/
theorem loadNamespaces_write_mode_rejected (mg eg : Bool) :
    (exceptOk (nwbhdf5ioInit "w" true mg eg) = false ∧
     exceptOk (nwbhdf5ioInit "w-" true mg eg) = false ∧
     exceptOk (nwbhdf5ioInit "x" true mg eg) = false) ∧
    (exceptOk (nwbhdf5ioInit "r" true mg eg) = true ∧
     exceptOk (nwbhdf5ioInit "r+" true mg eg) = true ∧
     exceptOk (nwbhdf5ioInit "a" true mg eg) = true) :=
  ⟨⟨rfl, rfl, rfl⟩, rfl, rfl, rfl⟩

/-- Claim C8: with load_namespaces unset, passing both a manager and an
extensions argument raises a ValueError; extensions alone builds the manager
from the extensions, a manager alone is used as given, and neither falls back
to the default core-namespace manager. -/
theorem manager_extensions_exclusive (mode : String) :
    nwbhdf5ioInit mode false true true =
      Except.error "manager and extensions cannot be specified together" ∧
    nwbhdf5ioInit mode false true false = Except.ok ManagerSource.given ∧
    nwbhdf5ioInit mode false false true = Except.ok ManagerSource.fromExtensions ∧
    nwbhdf5ioInit mode false false false = Except.ok ManagerSource.defaultManager :=
  ⟨rfl, rfl, rfl, rfl⟩

/-- Claim C9: constructing an ElectrodeGroup with a non-empty position whose
length is not three raises an exception naming the three required elements
x, y and z, while a None or empty position is stored as given. -/
theorem electrodeGroup_position_check (n d l dev : String) (pos : List Int) :
    (pos ≠ [] → pos.length ≠ 3 →
      electrodeGroupInit n d l dev (some pos) =
        Except.error
          "ElectrodeGroup position argument must have three elements: x, y, z") ∧
    (pos.length = 3 →
      electrodeGroupInit n d l dev (some pos) =
        Except.ok { name := n, description := d, location := l, device := dev,
                    position := some pos }) ∧
    electrodeGroupInit n d l dev none =
      Except.ok { name := n, description := d, location := l, device := dev,
                  position := none } ∧
    electrodeGroupInit n d l dev (some []) =
      Except.ok { name := n, description := d, location := l, device := dev,
                  position := some [] } := by
  refine ⟨?_, ?_, rfl, rfl⟩
  · intro hne hlen
    simp [electrodeGroupInit, positionTruthy, hne, hlen]
  · intro hlen
    simp [electrodeGroupInit, positionTruthy, hlen]

/-- Claim C9 witness: a two-element position is rejected with the message
naming x, y and z. -/
theorem electrodeGroup_position_check_witness :
    electrodeGroupInit "eg" "desc" "loc" "dev" (some [1, 2]) =
      Except.error
        "ElectrodeGroup position argument must have three elements: x, y, z" :=
  (electrodeGroup_position_check "eg" "desc" "loc" "dev" [1, 2]).1
    (by decide) (by decide)

/-- Claim C10: when both the data and the timestamps of a SpikeEventSeries are
plain arrays, differing lengths raise an exception and equal lengths pass; if
either argument is a TimeSeries or a DataChunkIterator the length check is
skipped and construction proceeds. -/
theorem spikeEventSeries_length_check (xs ys : List Int) (a b : SeriesArg) :
    (xs.length ≠ ys.length →
      spikeEventSeriesLengthCheck (SeriesArg.plainArray xs) (SeriesArg.plainArray ys) =
        Except.error "Must provide the same number of timestamps and spike events") ∧
    (xs.length = ys.length →
      spikeEventSeriesLengthCheck (SeriesArg.plainArray xs) (SeriesArg.plainArray ys) =
        Except.ok ()) ∧
    (a.isTimeSeries = true ∨ b.isTimeSeries = true ∨ a.isChunkIterator = true ∨
        b.isChunkIterator = true →
      spikeEventSeriesLengthCheck a b = Except.ok ()) := by
  refine ⟨?_, ?_, ?_⟩
  · intro hne
    simp [spikeEventSeriesLengthCheck, SeriesArg.isTimeSeries, SeriesArg.isChunkIterator,
          SeriesArg.len, hne]
  · intro heq
    simp [spikeEventSeriesLengthCheck, SeriesArg.isTimeSeries, SeriesArg.isChunkIterator,
          SeriesArg.len, heq]
  · intro hcase
    cases a <;> cases b <;>
      simp [SeriesArg.isTimeSeries, SeriesArg.isChunkIterator] at hcase <;>
      simp [spikeEventSeriesLengthCheck, SeriesArg.isTimeSeries, SeriesArg.isChunkIterator]

/-- Claim C10 witness: two plain arrays of lengths two and three are rejected,
and a DataChunkIterator data argument skips the check. -/
theorem spikeEventSeries_length_check_witness :
    spikeEventSeriesLengthCheck (SeriesArg.plainArray [1, 2])
        (SeriesArg.plainArray [1, 2, 3]) =
      Except.error "Must provide the same number of timestamps and spike events" ∧
    spikeEventSeriesLengthCheck (SeriesArg.chunkIterator [1, 2])
        (SeriesArg.plainArray [1, 2, 3]) = Except.ok () :=
  ⟨(spikeEventSeries_length_check [1, 2] [1, 2, 3]
      (SeriesArg.plainArray [1, 2]) (SeriesArg.plainArray [1, 2, 3])).1 (by decide),
   (spikeEventSeries_length_check [1, 2] [1, 2, 3]
      (SeriesArg.chunkIterator [1, 2]) (SeriesArg.plainArray [1, 2, 3])).2.2
      (by decide)⟩

/-- Claim C6: two-dimensional ElectricalSeries data whose second dimension
differs from the electrode count constructs successfully with a non-fatal
advisory warning and no error: the likely-transposed warning when the first
dimension equals the electrode count, and the may-be-transposed warning when
neither dimension matches. -/
theorem electricalSeries_2d_mismatch_warns (s0 s1 n : Nat) (h : s1 ≠ n) :
    exceptOk (electricalSeriesInit (some [s0, s1]) n) = true ∧
    (s0 = n → electricalSeriesInit (some [s0, s1]) n =
      Except.ok (some OrientationWarning.transposed)) ∧
    (s0 ≠ n → electricalSeriesInit (some [s0, s1]) n =
      Except.ok (some OrientationWarning.maybeTransposed)) := by
  have hcheck : checkShape [s0, s1] electricalSeriesDataShapeAlts = Except.ok () := by
    simp [checkShape, electricalSeriesDataShapeAlts, matchesShapeSpec]
  refine ⟨?_, ?_, ?_⟩
  · cases hn : (s0 == n) <;>
      simp [electricalSeriesInit, hcheck, electricalSeriesOrientationWarning, h, hn,
            exceptOk]
  · intro h0
    subst h0
    simp [electricalSeriesInit, hcheck, electricalSeriesOrientationWarning, h]
  · intro h0
    simp [electricalSeriesInit, hcheck, electricalSeriesOrientationWarning, h, h0]

/-- Claim C6 witness: data of shape three by five against three electrodes
warns that the data is transposed, and shape four by five against three
electrodes warns that it may be transposed; neither is an error. -/
theorem electricalSeries_2d_mismatch_warns_witness :
    electricalSeriesInit (some [3, 5]) 3 =
      Except.ok (some OrientationWarning.transposed) ∧
    electricalSeriesInit (some [4, 5]) 3 =
      Except.ok (some OrientationWarning.maybeTransposed) :=
  ⟨(electricalSeries_2d_mismatch_warns 3 5 3 (by decide)).2.1 rfl,
   (electricalSeries_2d_mismatch_warns 4 5 3 (by decide)).2.2 (by decide)⟩

/-- Claim C5: a value whose actual shape matches none of the declared shape
alternatives is rejected with a shape-constraint error carrying the expected
alternatives and the actual shape; under the alternatives declared in the
source, ElectricalSeries data passes exactly when it is one-, two- or
three-dimensional, and the num and times fields of Clustering pass exactly
when they are one-dimensional. -/
theorem shape_mismatch_rejected (actual : List Nat) (alts : List (List (Option Nat)))
    (h : ∀ alt ∈ alts, ¬ MatchesAlt actual alt) :
    checkShape actual alts =
      Except.error { alternatives := alts, actual := actual } ∧
    (checkShape actual electricalSeriesDataShapeAlts = Except.ok () ↔
      actual.length = 1 ∨ actual.length = 2 ∨ actual.length = 3) ∧
    (checkShape actual clusteringNumShapeAlts = Except.ok () ↔ actual.length = 1) ∧
    (checkShape actual clusteringTimesShapeAlts = Except.ok () ↔ actual.length = 1) := by
  have hone : matchesShapeSpec actual [none] = (actual.length == 1) :=
    matchesShapeSpec_allNone actual 1
  have htwo : matchesShapeSpec actual [none, none] = (actual.length == 2) :=
    matchesShapeSpec_allNone actual 2
  have hthree : matchesShapeSpec actual [none, none, none] = (actual.length == 3) :=
    matchesShapeSpec_allNone actual 3
  refine ⟨?_, ?_, ?_, ?_⟩
  · have hany : alts.any (matchesShapeSpec actual) = false := by
      rw [Bool.eq_false_iff]
      intro hc
      obtain ⟨alt, halt, hm⟩ := List.any_eq_true.mp hc
      exact h alt halt ((matchesShapeSpec_iff actual alt).mp hm)
    simp [checkShape, hany]
  · simp [checkShape, electricalSeriesDataShapeAlts, hone, htwo, hthree]
    tauto
  · simp [checkShape, clusteringNumShapeAlts, hone]
  · simp [checkShape, clusteringTimesShapeAlts, hone]

/-- Claim C5 witness: a four-dimensional shape matches none of the
ElectricalSeries alternatives and is rejected with the error identifying the
alternatives and the actual shape. -/
theorem shape_mismatch_rejected_witness :
    checkShape [2, 3, 4, 5] electricalSeriesDataShapeAlts =
      Except.error { alternatives := electricalSeriesDataShapeAlts,
                     actual := [2, 3, 4, 5] } :=
  (shape_mismatch_rejected [2, 3, 4, 5] electricalSeriesDataShapeAlts
    (by
      intro alt halt hm
      have hlen := List.Forall₂.length_eq hm
      fin_cases halt <;> simp at hlen)).1

theorem filterMap_length_filter {α β : Type} (f : α → Option β) (l : List α) :
    (l.filterMap f).length = (l.filter fun x => (f x).isSome).length := by
  induction l with
  | nil => rfl
  | cons x xs ih =>
      cases hfx : f x <;>
        simp [List.filterMap_cons, List.filter_cons, hfx, ih]

/-- Claim C3: validation collects the complete list of errors in one pass and
never stops at the first one: every violating declaration contributes its
error to the result, the number of errors equals the number of violating
declarations, and a builder missing two independent required fields and
containing one shape violation yields exactly three errors. -/
theorem validate_collects_all_errors (spec : TypeSpecFlat) (b : BuilderNode)
    (a : AttrSpec) (e : ValidationError) (ha : a ∈ spec.attrs)
    (he : checkAttr b a = some e) :
    e ∈ validateBuilder spec b ∧
    (validateBuilder spec b).length =
      (spec.attrs.filter fun x => (checkAttr b x).isSome).length ∧
    validateBuilder threeViolationSpec threeViolationBuilder =
      [ValidationError.missingError "f1", ValidationError.missingError "f2",
       ValidationError.shapeError "f3" [[none]] [2, 3]] := by
  refine ⟨?_, filterMap_length_filter (checkAttr b) spec.attrs, ?_⟩
  · exact List.mem_filterMap.mpr ⟨a, ha, he⟩
  · rfl

/-- Claim C3 witness: applied to the concrete three-violation scenario, the
missing error for f1 is among the results, and the full result is the
three-element list. -/
theorem validate_collects_all_errors_witness :
    ValidationError.missingError "f1" ∈
      validateBuilder threeViolationSpec threeViolationBuilder ∧
    validateBuilder threeViolationSpec threeViolationBuilder =
      [ValidationError.missingError "f1", ValidationError.missingError "f2",
       ValidationError.shapeError "f3" [[none]] [2, 3]] :=
  ⟨(validate_collects_all_errors threeViolationSpec threeViolationBuilder
      { name := "f1", required := true, shapeAlts := none }
      (ValidationError.missingError "f1") (by decide) (by decide)).1,
   (validate_collects_all_errors threeViolationSpec threeViolationBuilder
      { name := "f1", required := true, shapeAlts := none }
      (ValidationError.missingError "f1") (by decide) (by decide)).2.2⟩

/-- Claim C2: exporting a source store to a destination store leaves no link
in the destination pointing back into the source store, and preserves every
link of the source as an equivalent link of the destination: an internal link
becomes the corresponding internal link of the destination, an external link
is preserved verbatim, on the exported object carrying the same identifier. -/
theorem export_preserves_links (src : Store) (destId : Nat)
    (h : destId ≠ src.storeId) :
    (∀ o ∈ (exportStore src destId).objects, ∀ l ∈ o.links,
       l.storeId ≠ src.storeId) ∧
    (∀ o ∈ src.objects, ∃ o2 ∈ (exportStore src destId).objects,
       o2.objId = o.objId ∧
       (∀ l ∈ o.links, l.storeId = src.storeId →
          LinkRef.mk destId l.objId ∈ o2.links) ∧
       (∀ l ∈ o.links, l.storeId ≠ src.storeId → l ∈ o2.links)) := by
  constructor
  · intro o ho l hl
    obtain ⟨o0, ho0, hoe⟩ := List.mem_map.mp ho
    subst hoe
    obtain ⟨l0, hl0, hle⟩ := List.mem_map.mp hl
    subst hle
    unfold exportLink
    by_cases hc : l0.storeId = src.storeId
    · simp only [hc, beq_self_eq_true, if_true]
      exact h
    · have hcb : (l0.storeId == src.storeId) = false := by
        simpa using hc
      simp only [hcb, Bool.false_eq_true, if_false]
      exact hc
  · intro o ho
    refine ⟨{ objId := o.objId,
              links := o.links.map (exportLink src.storeId destId) },
            List.mem_map.mpr ⟨o, ho, rfl⟩, rfl, ?_, ?_⟩
    · intro l hl hls
      refine List.mem_map.mpr ⟨l, hl, ?_⟩
      simp [exportLink, hls]
    · intro l hl hls
      refine List.mem_map.mpr ⟨l, hl, ?_⟩
      have hcb : (l.storeId == src.storeId) = false := by
        simpa using hls
      simp [exportLink, hcb]

/-- Claim C2 witness: exporting a store with identifier zero holding one
object with an internal and an external link to a destination with
identifier one yields the exported object with the internal link redirected
into the destination and the external link kept, and no exported link targets
store zero. -/
theorem export_preserves_links_witness :
    (∀ o ∈ (exportStore
        (Store.mk 0 [StoredObject.mk 1 [LinkRef.mk 0 2, LinkRef.mk 7 3]]) 1).objects,
       ∀ l ∈ o.links, l.storeId ≠ 0) ∧
    (∃ o2 ∈ (exportStore
        (Store.mk 0 [StoredObject.mk 1 [LinkRef.mk 0 2, LinkRef.mk 7 3]]) 1).objects,
       o2.objId = 1 ∧
       (∀ l ∈ [LinkRef.mk 0 2, LinkRef.mk 7 3], l.storeId = 0 →
          LinkRef.mk 1 l.objId ∈ o2.links) ∧
       (∀ l ∈ [LinkRef.mk 0 2, LinkRef.mk 7 3], l.storeId ≠ 0 → l ∈ o2.links)) :=
  ⟨(export_preserves_links
      (Store.mk 0 [StoredObject.mk 1 [LinkRef.mk 0 2, LinkRef.mk 7 3]]) 1
      (by decide)).1,
   (export_preserves_links
      (Store.mk 0 [StoredObject.mk 1 [LinkRef.mk 0 2, LinkRef.mk 7 3]]) 1
      (by decide)).2
      (StoredObject.mk 1 [LinkRef.mk 0 2, LinkRef.mk 7 3]) (by decide)⟩

theorem mergeNamespaces_subset_left (dst src : Namespaces) (a : String) :
    a ∈ dst → a ∈ mergeNamespaces dst src := by
  unfold mergeNamespaces
  induction src generalizing dst with
  | nil => exact fun ha => ha
  | cons s rest ih =>
      intro ha
      simp only [List.foldl_cons]
      by_cases hs : s ∈ dst
      · rw [if_pos hs]
        exact ih dst ha
      · rw [if_neg hs]
        exact ih (dst ++ [s]) (List.mem_append_left _ ha)

theorem mergeNamespaces_subset_right (dst src : Namespaces) (a : String) :
    a ∈ src → a ∈ mergeNamespaces dst src := by
  unfold mergeNamespaces
  induction src generalizing dst with
  | nil => intro ha; cases ha
  | cons s rest ih =>
      intro ha
      simp only [List.foldl_cons]
      rcases List.mem_cons.mp ha with h1 | h2
      · subst h1
        by_cases hs : a ∈ dst
        · rw [if_pos hs]
          exact mergeNamespaces_subset_left dst rest a hs
        · rw [if_neg hs]
          exact mergeNamespaces_subset_left (dst ++ [a]) rest a
            (List.mem_append_right _ (List.mem_singleton.mpr rfl))
      · by_cases hs : s ∈ dst
        · rw [if_pos hs]
          exact ih dst h2
        · rw [if_neg hs]
          exact ih (dst ++ [s]) h2

theorem mergeNamespaces_of_subset (dst src : Namespaces) :
    (∀ x ∈ src, x ∈ dst) → mergeNamespaces dst src = dst := by
  unfold mergeNamespaces
  induction src with
  | nil => intro _; rfl
  | cons s rest ih =>
      intro h
      simp only [List.foldl_cons]
      rw [if_pos (h s (List.mem_cons_self s rest))]
      exact ih fun x hx => h x (List.mem_cons_of_mem s hx)

theorem mergeNamespaces_self (x : Namespaces) : mergeNamespaces x x = x :=
  mergeNamespaces_of_subset x x fun _ hx => hx

theorem applyExtItem_heap_other (nsOfPath : String → Namespaces) (a : Nat)
    (s : TMState) (it : ExtItem) (x : Nat) (hx : x ≠ a) :
    (applyExtItem nsOfPath a s it).heap x = s.heap x := by
  cases it <;> simp [applyExtItem, loadNamespacesAt, mergeAt, writeHeap, hx]

theorem foldl_applyExtItem_heap_other (nsOfPath : String → Namespaces) (a : Nat)
    (items : List ExtItem) (x : Nat) (hx : x ≠ a) :
    ∀ s : TMState, (items.foldl (applyExtItem nsOfPath a) s).heap x = s.heap x := by
  induction items with
  | nil => intro s; rfl
  | cons it rest ih =>
      intro s
      simp only [List.foldl_cons]
      rw [ih (applyExtItem nsOfPath a s it)]
      exact applyExtItem_heap_other nsOfPath a s it x hx

theorem foldl_applyExtItem_heap_mono (nsOfPath : String → Namespaces) (a : Nat)
    (items : List ExtItem) (ns : String) :
    ∀ s : TMState, ns ∈ s.heap a →
      ns ∈ (items.foldl (applyExtItem nsOfPath a) s).heap a := by
  induction items with
  | nil => exact fun s h => h
  | cons it rest ih =>
      intro s h
      simp only [List.foldl_cons]
      apply ih
      cases it with
      | path p =>
          simp only [applyExtItem, loadNamespacesAt, writeHeap, if_pos rfl]
          exact mergeNamespaces_subset_left _ _ _ h
      | typeMap addr =>
          simp only [applyExtItem, mergeAt, writeHeap, if_pos rfl]
          exact mergeNamespaces_subset_left _ _ _ h

theorem foldl_applyExtItem_incorporates (nsOfPath : String → Namespaces) (a : Nat)
    (items : List ExtItem) (it : ExtItem) (ns : String) :
    ∀ s : TMState, (∀ addr, ExtItem.typeMap addr ∈ items → addr ≠ a) →
      it ∈ items → ns ∈ extItemNamespaces nsOfPath s.heap it →
      ns ∈ (items.foldl (applyExtItem nsOfPath a) s).heap a := by
  induction items with
  | nil => intro s _ hit _; cases hit
  | cons it0 rest ih =>
      intro s hne hit hns
      simp only [List.foldl_cons]
      rcases List.mem_cons.mp hit with h1 | h2
      · subst h1
        apply foldl_applyExtItem_heap_mono
        cases it with
        | path p =>
            simp only [applyExtItem, loadNamespacesAt, writeHeap, if_pos rfl]
            exact mergeNamespaces_subset_right _ _ _
              (by simpa [extItemNamespaces] using hns)
        | typeMap addr =>
            simp only [applyExtItem, mergeAt, writeHeap, if_pos rfl]
            exact mergeNamespaces_subset_right _ _ _
              (by simpa [extItemNamespaces] using hns)
      · apply ih (applyExtItem nsOfPath a s it0)
          (fun addr haddr => hne addr (List.mem_cons_of_mem _ haddr)) h2
        cases it with
        | path p => simpa [extItemNamespaces] using hns
        | typeMap addr =>
            have haddr : addr ≠ a :=
              hne addr (List.mem_cons_of_mem _ (by simpa using h2))
            simp only [extItemNamespaces]
            rw [applyExtItem_heap_other nsOfPath a s it0 addr haddr]
            simpa [extItemNamespaces] using hns

/-- Claim C7: for every extensions argument, get_type_map returns a type map
incorporating the namespaces of the extensions while leaving the content of
the process-wide default type map unchanged; with no extensions the result is
a fresh independent copy of the default, at a different address, holding the
default content, and writing the returned object never affects the default. -/
theorem getTypeMap_preserves_default (nsOfPath : String → Namespaces)
    (s : TMState) (defaultAddr : Nat) (exts : ExtArg)
    (hd : defaultAddr < s.next) (hv : extArgValid s.next exts) :
    (getTypeMap nsOfPath defaultAddr exts s).2.heap defaultAddr =
      s.heap defaultAddr ∧
    (∀ ns ∈ extArgNamespaces nsOfPath s.heap exts,
       ns ∈ (getTypeMap nsOfPath defaultAddr exts s).2.heap
              (getTypeMap nsOfPath defaultAddr exts s).1) ∧
    (exts = ExtArg.noExt →
       (getTypeMap nsOfPath defaultAddr exts s).1 ≠ defaultAddr ∧
       (getTypeMap nsOfPath defaultAddr exts s).2.heap
           (getTypeMap nsOfPath defaultAddr exts s).1 = s.heap defaultAddr ∧
       ∀ v : Namespaces,
         (writeHeap (getTypeMap nsOfPath defaultAddr exts s).2
             (getTypeMap nsOfPath defaultAddr exts s).1 v).heap defaultAddr =
           s.heap defaultAddr) := by
  have hdne : defaultAddr ≠ s.next := Nat.ne_of_lt hd
  cases exts with
  | noExt =>
      refine ⟨?_, ?_, ?_⟩
      · simp [getTypeMap, deepcopyTM, hdne]
      · intro ns hns
        simp [extArgNamespaces] at hns
      · intro _
        refine ⟨fun hc => hdne hc.symm, ?_, ?_⟩
        · simp [getTypeMap, deepcopyTM]
        · intro v
          simp [getTypeMap, deepcopyTM, writeHeap, hdne]
  | path p =>
      refine ⟨?_, ?_, ?_⟩
      · simp [getTypeMap, deepcopyTM, loadNamespacesAt, writeHeap, hdne]
      · intro ns hns
        simp only [extArgNamespaces] at hns
        simp only [getTypeMap, deepcopyTM, loadNamespacesAt, writeHeap, if_pos rfl]
        exact mergeNamespaces_subset_right _ _ _ hns
      · intro hc
        cases hc
  | typeMap addr =>
      refine ⟨?_, ?_, ?_⟩
      · by_cases hc : defaultAddr = addr
        · subst hc
          simp [getTypeMap, mergeAt, writeHeap, mergeNamespaces_self]
        · simp [getTypeMap, mergeAt, writeHeap, hc]
      · intro ns hns
        simp only [extArgNamespaces] at hns
        simp only [getTypeMap, mergeAt, writeHeap, if_pos rfl, mergeNamespaces_self]
        exact hns
      · intro hc
        cases hc
  | listArg items =>
      have hne : ∀ addr, ExtItem.typeMap addr ∈ items → addr ≠ s.next := by
        intro addr haddr
        have hvi := hv (ExtItem.typeMap addr) haddr
        exact Nat.ne_of_lt hvi
      refine ⟨?_, ?_, ?_⟩
      · simp only [getTypeMap]
        rw [foldl_applyExtItem_heap_other nsOfPath (deepcopyTM s defaultAddr).1
          items defaultAddr hdne]
        simp [deepcopyTM, hdne]
      · intro ns hns
        simp only [extArgNamespaces, List.mem_flatten] at hns
        obtain ⟨L, hL, hnsL⟩ := hns
        obtain ⟨it, hit, hLe⟩ := List.mem_map.mp hL
        subst hLe
        simp only [getTypeMap]
        apply foldl_applyExtItem_incorporates nsOfPath _ items it ns _ hne hit
        cases it with
        | path p => simpa [extItemNamespaces] using hnsL
        | typeMap addr =>
            have haddr : addr ≠ s.next := hne addr hit
            simp only [extItemNamespaces, deepcopyTM]
            simp only [extItemNamespaces] at hnsL
            simpa [haddr] using hnsL
      · intro hc
        cases hc

/-- Claim C7 witness: with a default type map holding the core namespace at
address zero and a path extension defining one namespace, the default content
is unchanged by get_type_map and the returned map holds the extension
namespace. -/
theorem getTypeMap_preserves_default_witness :
    (getTypeMap (fun _ => ["ext"]) 0 (ExtArg.path "p")
        { heap := fun a => if a = 0 then ["core"] else [], next := 1 }).2.heap 0 =
      ["core"] ∧
    "ext" ∈ (getTypeMap (fun _ => ["ext"]) 0 (ExtArg.path "p")
        { heap := fun a => if a = 0 then ["core"] else [], next := 1 }).2.heap
        (getTypeMap (fun _ => ["ext"]) 0 (ExtArg.path "p")
            { heap := fun a => if a = 0 then ["core"] else [], next := 1 }).1 :=
  ⟨(getTypeMap_preserves_default (fun _ => ["ext"])
      { heap := fun a => if a = 0 then ["core"] else [], next := 1 } 0
      (ExtArg.path "p") (by decide) trivial).1,
   (getTypeMap_preserves_default (fun _ => ["ext"])
      { heap := fun a => if a = 0 then ["core"] else [], next := 1 } 0
      (ExtArg.path "p") (by decide) trivial).2.1 "ext" (by decide)⟩

theorem lookupPath_append (p : List Nat) (i : Nat) :
    ∀ b : Builder, lookupPath b (p ++ [i]) =
      (lookupPath b p).bind fun c => childAt c i := by
  induction p with
  | nil =>
      intro b
      cases b with
      | group n a d ch =>
          simp only [List.nil_append, lookupPath, Option.some_bind]
          cases hfg : forestGet ch i with
          | none => simp [lookupPath, childAt, hfg]
          | some child => simp [lookupPath, childAt, hfg]
  | cons j rest ih =>
      intro b
      cases b with
      | group n a d ch =>
          simp only [List.cons_append, lookupPath]
          cases hfg : forestGet ch j with
          | none => simp
          | some child => simp [ih child]

theorem forestGet_buildForest :
    ∀ (F : ContainerForest) (k : Nat),
      forestGet (buildForest F) k = (cforestGet F k).map build
  | ContainerForest.nil, _ => by simp [buildForest, forestGet, cforestGet]
  | ContainerForest.cons c rest, 0 => by simp [buildForest, forestGet, cforestGet]
  | ContainerForest.cons c rest, k + 1 => by
      simp [buildForest, forestGet, cforestGet, forestGet_buildForest rest k]

mutual
theorem constructSound (store : Builder) (c : Container) (p : List Nat)
    (h : lookupPath store p = some (build c)) :
    EquivC store (construct (build c) p) c := by
  cases c with
  | node n a d ch =>
      simp only [build, construct, EquivC]
      refine ⟨trivial, trivial, ?_, ?_⟩
      · intro i k
        simp only [materializeSlice, h, build, builderData]
      · apply constructForestSound store ch p 0
        intro k c0 hk
        simp only [Nat.zero_add]
        rw [lookupPath_append p k store, h]
        simp only [Option.some_bind, build, childAt]
        rw [forestGet_buildForest ch k, hk]
        simp
theorem constructForestSound (store : Builder) (F : ContainerForest) (p : List Nat)
    (j : Nat)
    (h : ∀ k c, cforestGet F k = some c →
      lookupPath store (p ++ [j + k]) = some (build c)) :
    EquivF store (constructForest (buildForest F) p j) F := by
  cases F with
  | nil =>
      simp only [buildForest, constructForest, EquivF]
  | cons c rest =>
      simp only [buildForest, constructForest, EquivF]
      constructor
      · apply constructSound store c (p ++ [j])
        have hc := h 0 c (by simp [cforestGet])
        simpa using hc
      · apply constructForestSound store rest p (j + 1)
        intro k c0 hk
        have hc := h (k + 1) c0 (by simpa [cforestGet] using hk)
        have harith : j + (k + 1) = j + 1 + k := by omega
        rw [harith] at hc
        exact hc
end

/-- Claim C1: writing a container graph through an I/O session and reading it
back yields a container graph equal attribute-for-attribute, with every lazy
dataset handle excluded from direct comparison but materializing, for every
requested slice, exactly the corresponding slice of the original array
contents, recursively over all children. -/
theorem write_read_roundTrip (c : Container) :
    EquivC (build c) (readConstruct (build c)) c :=
  constructSound (build c) c [] (by simp [lookupPath])

end PynwbSpec
